import Mathlib

/-!
Verification development for the trot-system-v8 betting pipeline.

The definitions below are a shallow embedding of the budget-constrained
recommendation pipeline of `src/app_v8.py` (helper `enforce_budget`,
`GeminiBetValidator.validate_bets`, `BetOptimizer`, the bet-selection part of
`TrotOrchestrator.process_race`, `BudgetAnalyzer.calculate_dynamic_budget`)
and of `src/ai/response_validator.py` (`ResponseValidator`).

Currency amounts and scores are modelled as exact rationals; Python's `round`
is modelled as round-half-to-even on rationals.  JSON dictionaries with
optional keys are modelled as structures with `Option` fields; a `.get(k, d)`
access becomes `Option.getD`.  Purely informational text fields
(`chevaux_noms`, `justification`, log messages) are omitted or kept as plain
strings, since no control flow depends on them.
-/

/-- Round a rational to the nearest integer, ties to even (Python `round`). -/
def roundHalfEvenZ (q : ℚ) : ℤ :=
  let f : ℤ := Int.floor q
  let r : ℚ := q - f
  if r < 1/2 then f
  else if 1/2 < r then f + 1
  else if f % 2 = 0 then f else f + 1

/-- Python `round(x, 2)`: round to the nearest cent. -/
def round2 (q : ℚ) : ℚ := (roundHalfEvenZ (q * 100) : ℚ) / 100

/-- A bet dictionary as it flows through `process_race`: either a raw bet from
the external model (keys `type`, `chevaux`, `mise`, `roi_attendu`) or the
`bet_to_dict` conversion of a locally generated bet (keys `type`, `chevaux`,
`cost`, `roi_expected` — note: no `mise` key).  Optional fields model
possibly-absent dictionary keys. -/
structure DictBet where
  type : String
  chevaux : List ℤ
  mise : Option ℚ
  cost : Option ℚ
  roi_attendu : Option ℚ
  roi_expected : Option ℚ
deriving DecidableEq

/-- `b.get('mise', 0)` as used throughout `app_v8.py`. -/
def miseOf (b : DictBet) : ℚ := b.mise.getD 0

/-- `sum(b.get('mise', 0) for b in bets)`. -/
def totalMise (bets : List DictBet) : ℚ := (bets.map miseOf).sum

/-- `app_v8.enforce_budget` (lines 266-301): if the summed stakes exceed
`budget_max + 0.50`, scale every stake by `budget_max / total` and round it to
the cent; otherwise return the list unchanged. -/
def enforce_budget (bets : List DictBet) (budget_max : ℚ) : List DictBet :=
  if bets = [] then bets
  else
    let total := totalMise bets
    if budget_max + 1/2 < total then
      let factor := budget_max / total
      bets.map (fun b => { b with mise := some (round2 (miseOf b * factor)) })
    else bets

/-- `GeminiBetValidator.VALID_BET_TYPES`. -/
def VALID_BET_TYPES : List String :=
  ["SIMPLE_GAGNANT", "SIMPLE_PLACE", "COUPLE_GAGNANT", "COUPLE_PLACE",
   "TRIO", "MULTI_EN_4", "MULTI_EN_5", "DEUX_SUR_QUATRE"]

/-- The validation loop of `GeminiBetValidator.validate_bets` (lines 1605-1635):
walks the bet list keeping the running total and the accepted bets; any
violation aborts the whole validation with `(False, msg, [])`; after the loop
the total is checked against `budget_max + 0.50`. -/
def validateBetsGo (budget_max : ℚ) (nb_partants : ℕ) :
    List DictBet → ℚ → List DictBet → Bool × Option String × List DictBet
  | [], total, cleaned =>
      if budget_max + 1/2 < total then (false, some "Budget depasse", [])
      else (true, none, cleaned)
  | b :: rest, total, cleaned =>
      if b.type ∉ VALID_BET_TYPES then (false, some "Type pari invalide", [])
      else if b.chevaux = [] then (false, some "Aucun cheval", [])
      else if ¬ (∀ n ∈ b.chevaux, 1 ≤ n ∧ n ≤ (nb_partants : ℤ)) then
        (false, some "Numero cheval invalide", [])
      else if miseOf b ≤ 0 then (false, some "Mise invalide", [])
      else validateBetsGo budget_max nb_partants rest (total + miseOf b) (cleaned ++ [b])

/-- `GeminiBetValidator.validate_bets` (lines 1591-1635). -/
def validate_bets (bets : List DictBet) (budget_max : ℚ) (nb_partants : ℕ) :
    Bool × Option String × List DictBet :=
  if bets = [] then (true, none, [])
  else validateBetsGo budget_max nb_partants bets 0 []

/-- `HorseScore` restricted to the field the bet pipeline reads (`total`). -/
structure HorseScore where
  total : ℤ
deriving DecidableEq

/-- `ValueBetAnalysis` restricted to the fields the bet pipeline reads. -/
structure ValueBetAnalysis where
  is_value_bet : Bool
  edge : ℚ
deriving DecidableEq

/-- `HorseAnalysis` restricted to the fields the bet pipeline reads. -/
structure HorseAnalysis where
  numero : ℤ
  nom : String
  score : HorseScore
  value_bet : ValueBetAnalysis
  cote : ℚ
deriving DecidableEq

/-- `BetRecommendation` dataclass of `app_v8.py` (lines 449-458). -/
structure BetRecommendation where
  type : String
  chevaux : List ℤ
  chevaux_noms : List String
  cost : ℚ
  roi_expected : ℚ
  confidence : String
  justification : String
deriving DecidableEq

/-- Stable insertion into a descending-sorted list: `x` is placed before the
first element whose key is not larger — this matches the stable behaviour of
Python `sorted(..., reverse=True)`. -/
def insertDesc {α : Type} (key : α → ℚ) (x : α) : List α → List α
  | [] => [x]
  | y :: ys => if key x < key y then y :: insertDesc key x ys else x :: y :: ys

/-- Stable descending sort by a rational key (Python
`sorted(..., key=key, reverse=True)`). -/
def sortDesc {α : Type} (key : α → ℚ) : List α → List α
  | [] => []
  | x :: xs => insertDesc key x (sortDesc key xs)

/-- `BetOptimizer._strategy_cadenas` (lines 1717-1760): a win bet on the
favourite, a pairing with the runner-up when present, a MULTI_EN_4 over the
top four when at least four runners exist.  `analyses` is the score-sorted
list; the function is only reached with a non-empty list (top score ≥ 85). -/
def strategy_cadenas : List HorseAnalysis → List BetRecommendation
  | [] => []
  | favori :: rest =>
    let b1 : BetRecommendation :=
      ⟨"SIMPLE_GAGNANT", [favori.numero], [favori.nom], 3/2, 5/2, "HIGH", "Favori clair"⟩
    let couple : List BetRecommendation :=
      match rest with
      | [] => []
      | second :: _ =>
        [⟨"COUPLE_GAGNANT", [favori.numero, second.numero], [favori.nom, second.nom],
          3/2, 3, "MEDIUM", "Couple securite"⟩]
    let multi : List BetRecommendation :=
      if 4 ≤ (favori :: rest).length then
        let top4 := (favori :: rest).take 4
        [⟨"MULTI_EN_4", top4.map (·.numero), top4.map (·.nom), 3, 2, "HIGH", "Multi 4 securite"⟩]
      else []
    b1 :: (couple ++ multi)

/-- `BetOptimizer._strategy_bataille` (lines 1762-1792). -/
def strategy_bataille (analyses : List HorseAnalysis) : List BetRecommendation :=
  let top5 := (analyses.filter (fun a => decide (70 ≤ a.score.total))).take 5
  let m5 : List BetRecommendation :=
    if 5 ≤ top5.length then
      [⟨"MULTI_EN_5", top5.map (·.numero), top5.map (·.nom), 3, 4, "MEDIUM", "Course ouverte"⟩]
    else []
  let d4 : List BetRecommendation :=
    if 5 ≤ top5.length then
      [⟨"DEUX_SUR_QUATRE", top5.map (·.numero), top5.map (·.nom), 30, 7/2, "MEDIUM", "2sur4 large"⟩]
    else []
  m5 ++ d4

/-- `BetOptimizer._strategy_surprise` (lines 1794-1831).  Only reached with a
non-empty `value_bets` list. -/
def strategy_surprise (value_bets all_analyses : List HorseAnalysis) : List BetRecommendation :=
  match sortDesc (fun a => a.value_bet.edge) value_bets with
  | [] => []
  | best_vb :: _ =>
    let b1 : BetRecommendation :=
      ⟨"SIMPLE_GAGNANT", [best_vb.numero], [best_vb.nom], 3/2, 5, "MEDIUM", "Value Bet"⟩
    let top3 := all_analyses.take 3
    let multi_chevaux := if best_vb ∈ top3 then top3 else best_vb :: top3
    let b2 : BetRecommendation :=
      ⟨"MULTI_EN_4", multi_chevaux.map (·.numero), multi_chevaux.map (·.nom),
       3, 3, "MEDIUM", "Multi incluant value bet"⟩
    [b1, b2]

/-- The enumeration loop of `BetOptimizer._strategy_default` (lines 1833-1848):
one SIMPLE_GAGNANT per horse, expected return `1.5 + i*0.5`. -/
def strategyDefaultGo : ℕ → List HorseAnalysis → List BetRecommendation
  | _, [] => []
  | i, a :: rest =>
    ⟨"SIMPLE_GAGNANT", [a.numero], [a.nom], 3/2, 3/2 + (i : ℚ) * (1/2), "LOW", "Top"⟩ ::
      strategyDefaultGo (i + 1) rest

/-- `BetOptimizer._strategy_default`: a simple win bet on each of the top 3. -/
def strategy_default (analyses : List HorseAnalysis) : List BetRecommendation :=
  strategyDefaultGo 0 (analyses.take 3)

/-- The greedy selection loop of `BetOptimizer._optimize_budget`
(lines 1856-1862): keep a bet whenever the running total stays within the
budget, otherwise skip it. -/
def optimizeGo (budget_max : ℚ) :
    List BetRecommendation → List BetRecommendation → ℚ → List BetRecommendation × ℚ
  | [], selected, total => (selected, total)
  | b :: rest, selected, total =>
    if total + b.cost ≤ budget_max then
      optimizeGo budget_max rest (selected ++ [b]) (total + b.cost)
    else optimizeGo budget_max rest selected total

/-- `BetOptimizer._optimize_budget` (lines 1850-1863): sort by expected return
per unit of cost, descending, then greedily select under the budget. -/
def optimize_budget (budget_max : ℚ) (bets : List BetRecommendation) :
    List BetRecommendation × ℚ :=
  optimizeGo budget_max (sortDesc (fun b => b.roi_expected / b.cost) bets) [] 0

/-- `BetOptimizer.generate_bets` (lines 1678-1715): classify the scenario from
the scored field and apply the matching strategy, then trim to the budget.
The unused `race_info` parameter of the source is dropped. -/
def generate_bets (budget_max : ℚ) (analyses : List HorseAnalysis) :
    List BetRecommendation × ℚ :=
  let analyses_sorted := sortDesc (fun a => (a.score.total : ℚ)) analyses
  let top_score : ℤ := match analyses_sorted with | [] => 0 | a :: _ => a.score.total
  let count_70_plus := (analyses.filter (fun a => decide (70 ≤ a.score.total))).length
  let value_bets :=
    analyses.filter (fun a => a.value_bet.is_value_bet && decide (70 ≤ a.score.total))
  let bets :=
    if 85 ≤ top_score then strategy_cadenas analyses_sorted
    else if 5 ≤ count_70_plus then strategy_bataille analyses_sorted
    else if value_bets ≠ [] then strategy_surprise value_bets analyses_sorted
    else strategy_default analyses_sorted
  optimize_budget budget_max bets

/-- `bet_to_dict` (lines 109-136) applied to a local `BetRecommendation`: the
resulting dictionary has keys `cost` and `roi_expected` but no `mise` and no
`roi_attendu` key. -/
def bet_to_dict (b : BetRecommendation) : DictBet :=
  { type := b.type, chevaux := b.chevaux, mise := none, cost := some b.cost,
    roi_attendu := none, roi_expected := some b.roi_expected }

/-- The parsed external model response as `process_race` sees it:
`result_json.get("paris_recommandes", [])` and the possibly-absent
`confiance_globale` field. -/
structure GeminiResponse where
  paris_recommandes : List DictBet
  confiance_globale : Option ℤ
deriving DecidableEq

/-- Outcome of the external call in `process_race`: `apiError` covers every
exception raised before the bets are extracted (network error, quota,
malformed JSON, missing API key); `success` is a parsed JSON response.  The
kill-switch `ValueError` (line 2942) is raised after `gemini_bets` has been
assigned (line 2921) and the handler does not reset it, so it is not an
`apiError`. -/
inductive GeminiOutcome where
  | apiError
  | success (resp : GeminiResponse)

/-- The value of the local variable `gemini_bets` after the try/except block:
`None` (modelled as `[]`, both falsy) on an early exception, otherwise the
extracted list — even when the kill-switch fired. -/
def geminiBetsOf : GeminiOutcome → List DictBet
  | .apiError => []
  | .success resp => resp.paris_recommandes

/-- `result_json.get("confiance_globale", 10)` (line 2934). -/
def confianceValue (resp : GeminiResponse) : ℤ := resp.confiance_globale.getD 10

/-- Whether the kill-switch condition of lines 2933-2942 fires. -/
def killSwitchFired : GeminiOutcome → Bool
  | .apiError => false
  | .success resp => decide (confianceValue resp < 6)

/-- `sum(b.get("roi_attendu", 0) for b in gemini_bets)` (line 2982). -/
def totalRoiAttendu (bets : List DictBet) : ℚ := (bets.map (fun b => b.roi_attendu.getD 0)).sum

/-- `sum(b.roi_expected for b in python_bets)` (line 2860). -/
def totalRoiExpected (bets : List BetRecommendation) : ℚ := (bets.map (·.roi_expected)).sum

/-- The triple `(bets_recommended, total_cost, strategy_selected)` computed by
`process_race`. -/
structure SelectionResult where
  bets_recommended : List DictBet
  total_cost : ℚ
  strategy_selected : String
deriving DecidableEq

/-- The strategy-selection block of `process_race` (lines 2959-3002): if the
external bets list is non-empty, validate it; on validation failure fall back
to the converted local bets; otherwise select the external bets exactly when
their summed expected return beats the local one by more than 10%. -/
def select_strategy (outcome : GeminiOutcome) (python_bets : List BetRecommendation)
    (python_cost : ℚ) (budget : ℚ) (nb_partants : ℕ) : SelectionResult :=
  if geminiBetsOf outcome = [] then ⟨python_bets.map bet_to_dict, python_cost, "python"⟩
  else if (validate_bets (geminiBetsOf outcome) budget nb_partants).1 = false then
    ⟨python_bets.map bet_to_dict, python_cost, "python"⟩
  else if totalRoiExpected python_bets * (11/10) <
      totalRoiAttendu (validate_bets (geminiBetsOf outcome) budget nb_partants).2.2 then
    ⟨(validate_bets (geminiBetsOf outcome) budget nb_partants).2.2,
     totalMise (validate_bets (geminiBetsOf outcome) budget nb_partants).2.2, "gemini"⟩
  else ⟨python_bets.map bet_to_dict, python_cost, "python"⟩

/-- The bet-producing tail of `TrotOrchestrator.process_race` (lines
2854-3009): always generate the local bets, select a strategy, then apply the
final `enforce_budget` guard and recompute the total from the `mise` keys. -/
def process_race_bets (outcome : GeminiOutcome) (analyses : List HorseAnalysis)
    (budget : ℚ) : SelectionResult :=
  let pb := generate_bets budget analyses
  let sel := select_strategy outcome pb.1 pb.2 budget analyses.length
  let final := enforce_budget sel.bets_recommended budget
  ⟨final, totalMise final, sel.strategy_selected⟩

/-- The `Race` dataclass of `src/models/race.py`, restricted to the two fields
`ResponseValidator` reads. -/
structure Race where
  nb_partants : ℕ
  confiance_globale : ℤ
deriving DecidableEq

/-- A raw external response as `ResponseValidator` receives it: every required
field is a possibly-absent key.  Opaque payloads (`top_5_chevaux`,
`value_bets_detectes`, text fields) are kept as plain strings/lists since only
their presence matters. -/
structure RVResponse where
  scenario_course : Option String
  analyse_tactique : Option String
  top_5_chevaux : Option (List String)
  value_bets_detectes : Option (List String)
  paris_recommandes : Option (List DictBet)
  budget_total : Option ℚ
  budget_utilise : Option ℚ
  roi_moyen_attendu : Option ℚ
  conseil_final : Option String
  confiance_globale : Option ℤ
deriving DecidableEq

/-- The `BetRecommendation` dataclass of `src/models/bet.py`, restricted to the
machine-read fields (`chevaux_noms` and `justification` are informational). -/
structure RVBet where
  type : String
  chevaux : List ℤ
  mise : ℚ
  roi_attendu : ℚ
deriving DecidableEq

/-- The `RaceAnalysis` dataclass of `src/models/bet.py` (machine-read fields). -/
structure RaceAnalysis where
  scenario_course : String
  paris_recommandes : List RVBet
  budget_total : ℚ
  budget_utilise : ℚ
  confiance_globale : ℤ
deriving DecidableEq

/-- `ResponseValidator._validate_structure`: every required field present. -/
def rv_validate_structure (r : RVResponse) : Bool :=
  r.scenario_course.isSome && r.analyse_tactique.isSome && r.top_5_chevaux.isSome &&
  r.value_bets_detectes.isSome && r.paris_recommandes.isSome && r.budget_total.isSome &&
  r.budget_utilise.isSome && r.roi_moyen_attendu.isSome && r.conseil_final.isSome &&
  r.confiance_globale.isSome

/-- `ResponseValidator.valid_scenarios`. -/
def rv_valid_scenarios : List String :=
  ["CADENAS", "BATAILLE", "SURPRISE", "PIEGE", "NON_JOUABLE"]

/-- `ResponseValidator.valid_bet_types`. -/
def rv_valid_bet_types : List String :=
  ["SIMPLE_GAGNANT", "SIMPLE_PLACE", "COUPLE_GAGNANT", "COUPLE_PLACE",
   "TRIO", "MULTI_EN_4", "MULTI_EN_5", "DEUX_SUR_QUATRE"]

/-- `ResponseValidator._validate_budget` (lines 113-131): the reported
`budget_utilise` must not exceed `budget + tolerance`, and a playable scenario
must come with a non-empty bet list. -/
def rv_validate_budget (r : RVResponse) (budget tolerance : ℚ) : Bool :=
  if budget + tolerance < r.budget_utilise.getD 0 then false
  else if r.scenario_course.getD "" ≠ "NON_JOUABLE" && (r.paris_recommandes.getD []).isEmpty
    then false
  else true

/-- `ResponseValidator._enforce_budget` (lines 133-169): scale every stake by
`(budget + tolerance) / total` — note the tolerance is part of the numerator —
round to the cent, and store the recomputed total in `budget_utilise`.
The source reads `pari['mise']` directly; absent keys (impossible for bets
that reach this point with a positive total) are modelled as 0. -/
def rv_enforce_budget (r : RVResponse) (budget tolerance : ℚ) : RVResponse :=
  let paris := r.paris_recommandes.getD []
  if paris = [] then r
  else
    let total_actuel := totalMise paris
    if total_actuel ≤ 0 then r
    else
      let max_budget := budget + tolerance
      let ratio := max_budget / total_actuel
      let paris2 := paris.map (fun p => { p with mise := some (round2 (miseOf p * ratio)) })
      { r with paris_recommandes := some paris2, budget_utilise := some (totalMise paris2) }

/-- `gemini_response.get('confiance_globale', 0)` (line 73 of
`response_validator.py`): an absent confidence field reads as 0 here, unlike
the orchestrator's default of 10. -/
def rv_confiance (r : RVResponse) : ℤ := r.confiance_globale.getD 0

/-- `ResponseValidator._validate_bets` (lines 171-188): bet types must be
whitelisted and every runner number must lie in `1..race.nb_partants`. -/
def rv_validate_bets (r : RVResponse) (race : Race) : Bool :=
  (r.paris_recommandes.getD []).all (fun p =>
    decide (p.type ∈ rv_valid_bet_types) &&
    p.chevaux.all (fun n => !(decide (n < 1) || decide ((race.nb_partants : ℤ) < n))))

/-- `ResponseValidator._create_non_jouable_response` (lines 222-238). -/
def rv_create_non_jouable (race : Race) (budget : ℚ) : RaceAnalysis :=
  ⟨"NON_JOUABLE", [], budget, 0, race.confiance_globale⟩

/-- One bet of `ResponseValidator._parse_to_race_analysis`: direct key access
`pari_data['mise']` / `pari_data['roi_attendu']` raises `KeyError` on an
absent key, which the caller turns into a rejection — modelled as `none`. -/
def rv_parse_bet (p : DictBet) : Option RVBet := do
  let m ← p.mise
  let ra ← p.roi_attendu
  pure ⟨p.type, p.chevaux, m, ra⟩

/-- `ResponseValidator.validate_and_parse` (lines 39-95): structure check,
scenario check, budget check with automatic repair, kill switch at
threshold 4, bet validation, and final parse. -/
def validate_and_parse (r : RVResponse) (race : Race) (budget tolerance : ℚ) :
    Option RaceAnalysis :=
  if ¬ rv_validate_structure r then none
  else if r.scenario_course.getD "" ∉ rv_valid_scenarios then none
  else
    let r2 := if ¬ rv_validate_budget r budget tolerance
              then rv_enforce_budget r budget tolerance else r
    if rv_confiance r2 < 4 then some (rv_create_non_jouable race budget)
    else if ¬ rv_validate_bets r2 race then none
    else
      match (r2.paris_recommandes.getD []).mapM rv_parse_bet with
      | none => none
      | some bets =>
        some ⟨r2.scenario_course.getD "", bets, r2.budget_total.getD 0,
              r2.budget_utilise.getD 0, r2.confiance_globale.getD 0⟩

/-- The race-level inputs of `BudgetAnalyzer.calculate_dynamic_budget` read
from `race_data`; `hippodrome` and `etatPiste` are modelled already
upper-cased, as the source upper-cases them on access. -/
structure RaceData where
  montantPrix : ℚ
  hippodrome : String
  etatPiste : String
deriving DecidableEq

/-- The scenario dictionary fields read by `calculate_dynamic_budget`. -/
structure ScenarioInfo where
  scenario : String
  confidence : String
deriving DecidableEq

/-- The machine-read fields of the dictionary returned by
`calculate_dynamic_budget`. -/
structure BudgetAnalysis where
  budget_recommended : ℚ
  confidence : String
  playable : Bool
deriving DecidableEq

/-- The scenario/confidence points matrix (lines 2444-2460), default 1.0. -/
def scenarioMatrix (s c : String) : ℚ :=
  match s, c with
  | "CADENAS", "HIGH" => 4
  | "CADENAS", "MEDIUM" => 3
  | "CADENAS", "LOW" => 2
  | "BATAILLE", "HIGH" => 3
  | "BATAILLE", "MEDIUM" => 2
  | "BATAILLE", "LOW" => 1
  | "SURPRISE", "HIGH" => 7/2
  | "SURPRISE", "MEDIUM" => 5/2
  | "SURPRISE", "LOW" => 3/2
  | "NON_JOUABLE", "LOW" => 0
  | _, _ => 1

/-- The confidence classification of lines 2564-2578. -/
def confidenceLabel (budget_recommended : ℚ) : String :=
  if 17 ≤ budget_recommended then "TRES_FORTE"
  else if 13 ≤ budget_recommended then "FORTE"
  else if 9 ≤ budget_recommended then "MOYENNE"
  else if 5 ≤ budget_recommended then "FAIBLE"
  else "TRES_FAIBLE"

/-- Criterion 2 (lines 2412-2435): score discrimination from the descending
sorted score list. -/
def discriminationPoints : List ℚ → ℚ
  | s0 :: s1 :: rest =>
    let gap := s0 - s1
    let base : ℚ :=
      if 15 ≤ gap then 4 else if 10 ≤ gap then 3
      else if 7 ≤ gap then 2 else if 5 ≤ gap then 1 else 0
    let bonus : ℚ :=
      match rest with
      | s2 :: _ :: s4 :: _ => if 10 ≤ s2 - s4 then 1/2 else 0
      | _ => 0
    base + bonus
  | _ => 0

/-- Criterion 4 (lines 2463-2481): value-bet points. -/
def vbPoints : List HorseAnalysis → ℚ
  | [] => 0
  | value_bets =>
    let nb_vb := value_bets.length
    let avg_edge := (value_bets.map (fun a => a.value_bet.edge)).sum / (nb_vb : ℚ)
    if 2 ≤ nb_vb ∧ 15/100 ≤ avg_edge then 3
    else if 1 ≤ nb_vb ∧ 15/100 ≤ avg_edge then 5/2
    else if 2 ≤ nb_vb ∧ 1/10 ≤ avg_edge then 2
    else if 1 ≤ nb_vb ∧ 1/10 ≤ avg_edge then 3/2
    else 1/2

/-- Criterion 5 (lines 2484-2504): race level from the prize money, with a
capped prestige-track bonus. -/
def levelPoints (montantPrix : ℚ) (hippodrome : String) : ℚ :=
  let base : ℚ :=
    if 100000 ≤ montantPrix then 2
    else if 50000 ≤ montantPrix then 3/2
    else if 30000 ≤ montantPrix then 1
    else 1/2
  let boosted :=
    if hippodrome ∈ ["VINCENNES", "ENGHIEN", "CABOURG", "CAEN"] then base + 3/10 else base
  min boosted 2

/-- Criterion 6 (lines 2507-2522): track-condition points, default 0.3. -/
def conditionsPoints (etatPiste : String) : ℚ :=
  match etatPiste with
  | "BON" => 3/5
  | "SOUPLE" => 1/2
  | "COLLANT" => 2/5
  | "LOURD" => 1/5
  | "TRES_LOURD" => 0
  | "TRES LOURD" => 0
  | _ => 3/10

/-- Criterion 7 (lines 2525-2537): runner-count points. -/
def partantsPoints (nb_partants : ℕ) : ℚ :=
  if 10 ≤ nb_partants ∧ nb_partants ≤ 14 then 2/5
  else if 8 ≤ nb_partants ∧ nb_partants ≤ 16 then 3/10
  else if 6 ≤ nb_partants ∧ nb_partants ≤ 18 then 1/5
  else 0

/-- The 0-20 point total of the seven criteria (lines 2543-2551). -/
def totalPoints (race_data : RaceData) (analyses : List HorseAnalysis)
    (quality_score : ℚ) (scenario : ScenarioInfo) (value_bets : List HorseAnalysis) : ℚ :=
  quality_score / 100 * 6 +
    discriminationPoints (sortDesc id (analyses.map (fun a => (a.score.total : ℚ)))) +
    scenarioMatrix scenario.scenario scenario.confidence +
    vbPoints value_bets +
    levelPoints race_data.montantPrix race_data.hippodrome +
    conditionsPoints race_data.etatPiste +
    partantsPoints analyses.length

/-- `BudgetAnalyzer.calculate_dynamic_budget` (lines 2365-2614): sum seven
criteria to a 0-20 point total, round it to the nearest 0.5 euro, clamp to
[0, 20], and classify confidence.  No flooring to 0 happens below the
playability threshold: the rounded value is returned as-is together with
`playable = (budget_recommended >= 5.0)`. -/
def calculate_dynamic_budget (race_data : RaceData) (analyses : List HorseAnalysis)
    (quality_score : ℚ) (scenario : ScenarioInfo) (value_bets : List HorseAnalysis) :
    BudgetAnalysis :=
  let budget_rounded :=
    (roundHalfEvenZ (totalPoints race_data analyses quality_score scenario value_bets * 2) : ℚ)
      / 2
  let budget_recommended := max 0 (min 20 budget_rounded)
  ⟨budget_recommended, confidenceLabel budget_recommended, decide (5 ≤ budget_recommended)⟩

/-! ### Concrete fixtures used by witnesses and counterexamples -/

/-- A mid-field horse: score 50, no value bet. -/
def exH50 : HorseAnalysis := ⟨1, "A", ⟨50⟩, ⟨false, 0⟩, 10⟩

/-- A dominant favourite: score 90. -/
def exH90 : HorseAnalysis := ⟨1, "A", ⟨90⟩, ⟨false, 0⟩, 2⟩

/-- A runner-up: score 60. -/
def exH60 : HorseAnalysis := ⟨2, "B", ⟨60⟩, ⟨false, 0⟩, 5⟩

/-- A runner numbered 3 (runner number 2 scratched) with score 40. -/
def exH40n3 : HorseAnalysis := ⟨3, "C", ⟨40⟩, ⟨false, 0⟩, 10⟩

/-- A valid external bet with a very large claimed expected return. -/
def exGbet : DictBet := ⟨"SIMPLE_GAGNANT", [1], some 3, none, some 500, none⟩

/-- A valid external bet used for the second kill-switch scenario. -/
def exGbet2 : DictBet := ⟨"SIMPLE_PLACE", [1], some 2, none, some 100, none⟩

/-- An external bet with the non-whitelisted type `QUINTE`. -/
def exBadTypeBet : DictBet := ⟨"QUINTE", [1], some 2, none, some 3, none⟩

/-- An external bet naming runner number 2. -/
def exBetOn2 : DictBet := ⟨"SIMPLE_GAGNANT", [2], some 1, none, some 2, none⟩

/-- An external bet naming runner number 3. -/
def exBetOn3 : DictBet := ⟨"SIMPLE_GAGNANT", [3], some 1, none, some 2, none⟩

/-- An external bet whose stake 21 overruns every small budget. -/
def exPari21 : DictBet := ⟨"SIMPLE_GAGNANT", [1], some 21, none, some 2, none⟩

/-- A structurally complete external response whose bets total 21. -/
def exRVResp21 : RVResponse :=
  ⟨some "CADENAS", some "t", some [], some [], some [exPari21],
   some 20, some 21, some 2, some "ok", some 9⟩

/-- A structurally complete external response missing only `confiance_globale`. -/
def exRVNoConf : RVResponse :=
  ⟨some "CADENAS", some "t", some [], some [], some [],
   some 20, some 0, some 2, some "ok", none⟩

/-- External response with self-assessed confidence 2 (kill-switch range). -/
def exRespConf2 : GeminiResponse := ⟨[exGbet], some 2⟩

/-- External response with self-assessed confidence 3 (kill-switch range). -/
def exRespConf3 : GeminiResponse := ⟨[exGbet2], some 3⟩

/-- External response with comfortable confidence 9. -/
def exRespConf9 : GeminiResponse := ⟨[exGbet], some 9⟩

/-- Race data of a small unremarkable race in good conditions. -/
def exRD0 : RaceData := ⟨0, "", "BON"⟩

/-- A CADENAS scenario detected with medium confidence. -/
def exSC0 : ScenarioInfo := ⟨"CADENAS", "MEDIUM"⟩

/-! ### Helper lemmas -/

@[simp] theorem totalMise_nil : totalMise [] = 0 := rfl

@[simp] theorem totalMise_cons (b : DictBet) (l : List DictBet) :
    totalMise (b :: l) = miseOf b + totalMise l := by
  simp [totalMise]

@[simp] theorem miseOf_bet_to_dict (b : BetRecommendation) : miseOf (bet_to_dict b) = 0 := rfl

/-- Converted local bets carry no `mise` key, so their `mise` sum is 0. -/
theorem totalMise_map_bet_to_dict (l : List BetRecommendation) :
    totalMise (l.map bet_to_dict) = 0 := by
  induction l with
  | nil => rfl
  | cons b t ih => simp [ih]

/-- When the stakes already respect the budget the final guard is a no-op. -/
theorem enforce_budget_noop (bets : List DictBet) (budget_max : ℚ)
    (h : totalMise bets ≤ budget_max + 1/2) : enforce_budget bets budget_max = bets := by
  by_cases hb : bets = []
  · simp [enforce_budget, hb]
  · simp only [enforce_budget, if_neg hb]
    rw [if_neg (not_lt.mpr h)]

/-- If the validation loop succeeds it has accepted every remaining bet in
order and the accumulated stake total respects `budget_max + 0.50`. -/
theorem validateBetsGo_true (bm : ℚ) (nb : ℕ) :
    ∀ (l : List DictBet) (total : ℚ) (cleaned : List DictBet),
      (validateBetsGo bm nb l total cleaned).1 = true →
      (validateBetsGo bm nb l total cleaned).2.2 = cleaned ++ l ∧
        total + totalMise l ≤ bm + 1/2
  | [], total, cleaned => by
      intro h
      by_cases hc : bm + 1/2 < total
      · simp only [validateBetsGo, if_pos hc] at h
        simp at h
      · simp only [validateBetsGo, if_neg hc]
        refine ⟨by simp, ?_⟩
        simp only [totalMise_nil]
        linarith [not_lt.mp hc]
  | b :: rest, total, cleaned => by
      intro h
      by_cases g1 : b.type ∉ VALID_BET_TYPES
      · simp only [validateBetsGo, if_pos g1] at h
        simp at h
      · by_cases g2 : b.chevaux = []
        · simp only [validateBetsGo, if_neg g1, if_pos g2] at h
          simp at h
        · by_cases g3 : ¬ (∀ n ∈ b.chevaux, 1 ≤ n ∧ n ≤ (nb : ℤ))
          · simp only [validateBetsGo, if_neg g1, if_neg g2, if_pos g3] at h
            simp at h
          · by_cases g4 : miseOf b ≤ 0
            · simp only [validateBetsGo, if_neg g1, if_neg g2, if_neg g3, if_pos g4] at h
              simp at h
            · simp only [validateBetsGo, if_neg g1, if_neg g2, if_neg g3, if_neg g4] at h ⊢
              obtain ⟨ih1, ih2⟩ :=
                validateBetsGo_true bm nb rest (total + miseOf b) (cleaned ++ [b]) h
              refine ⟨by rw [ih1]; simp, ?_⟩
              simp only [totalMise_cons]
              linarith

/-- Successful validation returns the input bets unchanged, within budget. -/
theorem validate_bets_true (bets : List DictBet) (bm : ℚ) (nb : ℕ)
    (hne : bets ≠ []) (h : (validate_bets bets bm nb).1 = true) :
    (validate_bets bets bm nb).2.2 = bets ∧ totalMise bets ≤ bm + 1/2 := by
  simp only [validate_bets, if_neg hne] at h ⊢
  obtain ⟨h1, h2⟩ := validateBetsGo_true bm nb bets 0 [] h
  refine ⟨by rw [h1]; simp, by linarith⟩

/-- Whatever `select_strategy` picks, its `mise` total respects the budget:
the external branch is guarded by `validate_bets`, and the local branch's
converted dictionaries carry no `mise` key at all. -/
theorem select_strategy_totalMise (outcome : GeminiOutcome)
    (python_bets : List BetRecommendation) (python_cost budget : ℚ) (nb : ℕ)
    (hb : 0 ≤ budget) :
    totalMise (select_strategy outcome python_bets python_cost budget nb).bets_recommended
      ≤ budget + 1/2 := by
  have hpy : totalMise (python_bets.map bet_to_dict) = 0 := totalMise_map_bet_to_dict _
  by_cases hg : geminiBetsOf outcome = []
  · simp only [select_strategy, if_pos hg]
    rw [hpy]; linarith
  · by_cases hv : (validate_bets (geminiBetsOf outcome) budget nb).1 = false
    · simp only [select_strategy, if_neg hg, if_pos hv]
      rw [hpy]; linarith
    · have hvt : (validate_bets (geminiBetsOf outcome) budget nb).1 = true :=
        Bool.not_eq_false _ ▸ (eq_true_of_ne_false hv)
      obtain ⟨hcl, hle⟩ := validate_bets_true (geminiBetsOf outcome) budget nb hg hvt
      by_cases hroi : totalRoiExpected python_bets * (11/10) <
          totalRoiAttendu (validate_bets (geminiBetsOf outcome) budget nb).2.2
      · simp only [select_strategy, if_neg hg, if_neg hv, if_pos hroi]
        rw [hcl]; exact hle
      · simp only [select_strategy, if_neg hg, if_neg hv, if_neg hroi]
        rw [hpy]; linarith

/-- C1.  For every external outcome (including adversarial stake values),
every list of scored runners and every non-negative recommended budget, the
final recommendation set returned by the bet-selection tail of
`TrotOrchestrator.process_race`, after the final `enforce_budget` guard, has a
sum of `mise` stakes at most the recommended budget plus 0.50. -/
theorem process_race_budget_invariant (outcome : GeminiOutcome)
    (analyses : List HorseAnalysis) (budget : ℚ) (hb : 0 ≤ budget) :
    totalMise (process_race_bets outcome analyses budget).bets_recommended ≤ budget + 1/2 ∧
    (process_race_bets outcome analyses budget).total_cost ≤ budget + 1/2 := by
  have hsel := select_strategy_totalMise outcome (generate_bets budget analyses).1
    (generate_bets budget analyses).2 budget analyses.length hb
  have hnoop := enforce_budget_noop _ budget hsel
  simp only [process_race_bets]
  rw [hnoop]
  exact ⟨hsel, hsel⟩

/-- Witness for C1 at a concrete input. -/
theorem process_race_budget_invariant_witness :
    totalMise (process_race_bets .apiError [exH50] 10).bets_recommended ≤ 10 + 1/2 ∧
    (process_race_bets .apiError [exH50] 10).total_cost ≤ 10 + 1/2 :=
  process_race_budget_invariant .apiError [exH50] 10 (by norm_num)

/-- If some bet in the list has a non-whitelisted type, the validation loop
returns `(False, _, [])` no matter where it currently stands. -/
theorem validateBetsGo_badtype (bm : ℚ) (nb : ℕ) :
    ∀ (l : List DictBet) (total : ℚ) (cleaned : List DictBet),
      (∃ b ∈ l, b.type ∉ VALID_BET_TYPES) →
      (validateBetsGo bm nb l total cleaned).1 = false ∧
        (validateBetsGo bm nb l total cleaned).2.2 = []
  | [], _, _ => by rintro ⟨b, hb, _⟩; exact absurd hb (List.not_mem_nil b)
  | b :: rest, total, cleaned => by
      rintro ⟨w, hw, hwt⟩
      by_cases g1 : b.type ∉ VALID_BET_TYPES
      · simp only [validateBetsGo, if_pos g1]
        exact ⟨by simp, by simp⟩
      · have hwr : w ∈ rest := by
          rcases List.mem_cons.mp hw with h | h
          · exact absurd (h ▸ hwt) g1
          · exact h
        by_cases g2 : b.chevaux = []
        · simp only [validateBetsGo, if_neg g1, if_pos g2]
          exact ⟨by simp, by simp⟩
        · by_cases g3 : ¬ (∀ n ∈ b.chevaux, 1 ≤ n ∧ n ≤ (nb : ℤ))
          · simp only [validateBetsGo, if_neg g1, if_neg g2, if_pos g3]
            exact ⟨by simp, by simp⟩
          · by_cases g4 : miseOf b ≤ 0
            · simp only [validateBetsGo, if_neg g1, if_neg g2, if_neg g3, if_pos g4]
              exact ⟨by simp, by simp⟩
            · simp only [validateBetsGo, if_neg g1, if_neg g2, if_neg g3, if_neg g4]
              exact validateBetsGo_badtype bm nb rest (total + miseOf b) (cleaned ++ [b])
                ⟨w, hwr, hwt⟩

/-- C4.  If any single external candidate has a bet type outside the closed
whitelist, `GeminiBetValidator.validate_bets` rejects the entire set: it
returns invalid with an empty cleaned list, never a partially accepted
subset. -/
theorem validate_bets_rejects_whole_set_on_bad_type (bets : List DictBet)
    (budget_max : ℚ) (nb_partants : ℕ)
    (h : ∃ b ∈ bets, b.type ∉ VALID_BET_TYPES) :
    (validate_bets bets budget_max nb_partants).1 = false ∧
      (validate_bets bets budget_max nb_partants).2.2 = [] := by
  have hne : bets ≠ [] := by
    rintro rfl
    obtain ⟨b, hb, _⟩ := h
    exact absurd hb (List.not_mem_nil b)
  simp only [validate_bets, if_neg hne]
  exact validateBetsGo_badtype budget_max nb_partants bets 0 [] h

/-- Witness for C4: a set containing a `QUINTE` bet is rejected outright. -/
theorem validate_bets_rejects_whole_set_on_bad_type_witness :
    (validate_bets [exGbet, exBadTypeBet] 10 5).1 = false ∧
      (validate_bets [exGbet, exBadTypeBet] 10 5).2.2 = [] :=
  validate_bets_rejects_whole_set_on_bad_type [exGbet, exBadTypeBet] 10 5 (by decide)

/-- C6.  Given a non-empty external bet set that passes structural validation,
the external set is selected (strategy `gemini`) if and only if the sum of its
claimed expected returns strictly exceeds the local set's expected-return sum
by more than the 10% relative margin; in every other case, including exact
ties, the local strategy is selected. -/
theorem external_selected_iff_roi_margin (resp : GeminiResponse)
    (analyses : List HorseAnalysis) (budget : ℚ)
    (hne : resp.paris_recommandes ≠ [])
    (hv : (validate_bets resp.paris_recommandes budget analyses.length).1 = true) :
    (process_race_bets (.success resp) analyses budget).strategy_selected = "gemini" ↔
      totalRoiExpected (generate_bets budget analyses).1 * (11/10) <
        totalRoiAttendu resp.paris_recommandes := by
  have hcl := (validate_bets_true resp.paris_recommandes budget analyses.length hne hv).1
  have hvf : ¬ ((validate_bets resp.paris_recommandes budget analyses.length).1 = false) := by
    simp [hv]
  simp only [process_race_bets, select_strategy, geminiBetsOf, if_neg hne, if_neg hvf]
  rw [hcl]
  by_cases hroi : totalRoiExpected (generate_bets budget analyses).1 * (11/10) <
      totalRoiAttendu resp.paris_recommandes
  · rw [if_pos hroi]
    simpa using hroi
  · rw [if_neg hroi]
    constructor
    · intro h
      simp at h
    · intro h
      exact absurd h hroi

/-- Witness for C6 at a concrete input. -/
theorem external_selected_iff_roi_margin_witness :
    exRespConf9.paris_recommandes ≠ [] ∧
    (validate_bets exRespConf9.paris_recommandes 10 ([exH90, exH60].length)).1 = true ∧
    ((process_race_bets (.success exRespConf9) [exH90, exH60] 10).strategy_selected = "gemini" ↔
      totalRoiExpected (generate_bets 10 [exH90, exH60]).1 * (11/10) <
        totalRoiAttendu exRespConf9.paris_recommandes) :=
  ⟨by simp [exRespConf9], by norm_num [validate_bets, validateBetsGo, exRespConf9, exGbet,
      miseOf, VALID_BET_TYPES],
   external_selected_iff_roi_margin exRespConf9 [exH90, exH60] 10 (by simp [exRespConf9])
     (by norm_num [validate_bets, validateBetsGo, exRespConf9, exGbet, miseOf, VALID_BET_TYPES])⟩

/-- C2 (failing input).  The claim says every external failure kind — the
kill-switch included — makes the pipeline return exactly the local bet set
with the local strategy.  But the kill-switch `ValueError` (line 2942) is
raised after `gemini_bets` was assigned (line 2921) and the handler never
clears it, so a low-confidence response with a non-empty bet list still
enters validation and ROI comparison: here confidence 3 fires the kill switch
yet the external strategy is selected. -/
theorem killswitch_failure_not_fallback :
    killSwitchFired (.success exRespConf3) = true ∧
    (process_race_bets (.success exRespConf3) [exH50] 8).strategy_selected = "gemini" ∧
    (process_race_bets (.success exRespConf3) [exH50] 8).bets_recommended = [exGbet2] := by
  refine ⟨by norm_num [killSwitchFired, confianceValue, exRespConf3], ?_, ?_⟩ <;>
  norm_num [process_race_bets, select_strategy, generate_bets, strategy_cadenas,
    strategy_bataille, strategy_surprise, strategy_default, strategyDefaultGo,
    optimize_budget, optimizeGo, sortDesc, insertDesc, validate_bets, validateBetsGo,
    enforce_budget, bet_to_dict, geminiBetsOf, totalMise, totalRoiAttendu, totalRoiExpected,
    miseOf, VALID_BET_TYPES, exRespConf3, exGbet2, exH50]

/-- C5 (failing input).  A structurally valid response with self-assessed
confidence 2 (strictly below 6) fires the kill switch, yet its bets are still
validated, win the ROI comparison and are selected — the externally proposed
bets are not discarded. -/
theorem killswitch_external_bets_still_selected :
    killSwitchFired (.success exRespConf2) = true ∧
    (process_race_bets (.success exRespConf2) [exH90, exH60] 10).strategy_selected = "gemini" ∧
    (process_race_bets (.success exRespConf2) [exH90, exH60] 10).bets_recommended = [exGbet] := by
  refine ⟨by norm_num [killSwitchFired, confianceValue, exRespConf2], ?_, ?_⟩ <;>
  norm_num [process_race_bets, select_strategy, generate_bets, strategy_cadenas,
    strategy_bataille, strategy_surprise, strategy_default, strategyDefaultGo,
    optimize_budget, optimizeGo, sortDesc, insertDesc, validate_bets, validateBetsGo,
    enforce_budget, bet_to_dict, geminiBetsOf, totalMise, totalRoiAttendu, totalRoiExpected,
    miseOf, VALID_BET_TYPES, exRespConf2, exGbet, exH90, exH60]

/-- C3 (counterexample).  The claim says the repair step multiplies every
stake by exactly `recommended / total`.  `ResponseValidator._enforce_budget`
instead multiplies by `(recommended + tolerance) / total`: with a single bet
of stake 21, budget 10 and tolerance 0.50 it produces stake 10.50, not the
`round2(21 * 10/21) = 10` the claim dictates. -/
theorem rv_enforce_budget_factor_counterexample :
    (rv_enforce_budget exRVResp21 10 (1/2)).paris_recommandes =
      some [{ exPari21 with mise := some (21/2) }] ∧
    (21/2 : ℚ) ≠ round2 (miseOf exPari21 * (10 / totalMise [exPari21])) := by
  constructor
  · norm_num [rv_enforce_budget, exRVResp21, exPari21, totalMise, miseOf, round2,
      roundHalfEvenZ]
  · norm_num [exPari21, totalMise, miseOf, round2, roundHalfEvenZ]

/-- C3 (amended).  The over-budget repair multiplies every stake by a fixed
factor, rounds each scaled stake to the nearest cent and is applied exactly
once (a single `map`); but the factor is `recommended / total` only in
`app_v8.enforce_budget`, while `ResponseValidator._enforce_budget` uses
`(recommended + tolerance) / total`. -/
theorem budget_repair_scaling_behaviour :
    (∀ (bets : List DictBet) (bm : ℚ), bm + 1/2 < totalMise bets →
      enforce_budget bets bm =
        bets.map (fun b => { b with mise := some (round2 (miseOf b * (bm / totalMise bets))) })) ∧
    (∀ (r : RVResponse) (budget tolerance : ℚ),
      r.paris_recommandes.getD [] ≠ [] → 0 < totalMise (r.paris_recommandes.getD []) →
      (rv_enforce_budget r budget tolerance).paris_recommandes =
        some ((r.paris_recommandes.getD []).map (fun p =>
          { p with mise := some (round2 (miseOf p *
              ((budget + tolerance) / totalMise (r.paris_recommandes.getD [])))) }))) := by
  constructor
  · intro bets bm h
    by_cases hbe : bets = []
    · subst hbe
      simp [enforce_budget]
    · simp only [enforce_budget, if_neg hbe]
      rw [if_pos h]
  · intro r budget tolerance hne hpos
    simp only [rv_enforce_budget, if_neg hne]
    rw [if_neg (not_le.mpr hpos)]

/-- Witness for the amended C3 at concrete inputs. -/
theorem budget_repair_scaling_behaviour_witness :
    ((10 : ℚ) + 1/2 < totalMise [exPari21] ∧
      enforce_budget [exPari21] 10 =
        [exPari21].map (fun b =>
          { b with mise := some (round2 (miseOf b * (10 / totalMise [exPari21]))) })) ∧
    (exRVResp21.paris_recommandes.getD [] ≠ [] ∧
      0 < totalMise (exRVResp21.paris_recommandes.getD []) ∧
      (rv_enforce_budget exRVResp21 10 (1/2)).paris_recommandes =
        some ((exRVResp21.paris_recommandes.getD []).map (fun p =>
          { p with mise := some (round2 (miseOf p *
              ((10 + 1/2) / totalMise (exRVResp21.paris_recommandes.getD [])))) }))) :=
  ⟨⟨by norm_num [totalMise, miseOf, exPari21],
    budget_repair_scaling_behaviour.1 [exPari21] 10
      (by norm_num [totalMise, miseOf, exPari21])⟩,
   ⟨by norm_num [exRVResp21],
    by norm_num [totalMise, miseOf, exRVResp21, exPari21],
    budget_repair_scaling_behaviour.2 exRVResp21 10 (1/2)
      (by norm_num [exRVResp21])
      (by norm_num [totalMise, miseOf, exRVResp21, exPari21])⟩⟩

/-- Evaluation of the budget policy on the concrete sub-threshold race:
points 0 + 0 + 3 + 0 + 0.5 + 0.6 + 0 = 4.1, rounded to 4. -/
theorem calculate_dynamic_budget_exRD0_eval :
    (calculate_dynamic_budget exRD0 [exH50] 0 exSC0 []).budget_recommended = 4 := by
  have hr : roundHalfEvenZ (41/5 : ℚ) = 8 := by
    unfold roundHalfEvenZ
    norm_num
  have ht : totalPoints exRD0 [exH50] 0 exSC0 [] = 41/10 := by
    have hs : sortDesc id ([exH50].map (fun a => (a.score.total : ℚ))) = [50] := by
      simp [sortDesc, insertDesc, exH50]
    have hsm : scenarioMatrix "CADENAS" "MEDIUM" = 3 := rfl
    have hcp : conditionsPoints "BON" = 3/5 := rfl
    have hvp : vbPoints [] = 0 := rfl
    have hdp : discriminationPoints [(50 : ℚ)] = 0 := rfl
    have hpp : partantsPoints 1 = 0 := by norm_num [partantsPoints]
    have hlp : levelPoints 0 "" = 1/2 := by
      have hnv : ¬ ("" = "VINCENNES" ∨ "" = "ENGHIEN" ∨ "" = "CABOURG" ∨ "" = "CAEN") := by
        decide
      rw [levelPoints]
      simp only [List.mem_cons, List.not_mem_nil, or_false, hnv, if_false]
      norm_num [min_def]
    simp only [totalPoints, exRD0, exSC0, hs, hsm, hdp, hvp, hlp, hcp, List.length_cons,
      List.length_nil, hpp]
    norm_num
  simp only [calculate_dynamic_budget, ht]
  rw [show (41/10 : ℚ) * 2 = 41/5 by norm_num, hr]
  norm_num [min_def, max_def]

/-- C7 (counterexample).  The claim says a mapped budget below the playable
threshold 5 is floored to exactly 0.  For a small race (one runner, zero
prize, CADENAS/MEDIUM scenario) the points total 4.1, which rounds to 4.0:
the label is the lowest one but the returned recommended budget is 4, not 0 —
no flooring happens. -/
theorem budget_below_threshold_not_floored_counterexample :
    (calculate_dynamic_budget exRD0 [exH50] 0 exSC0 []).budget_recommended = 4 ∧
    (calculate_dynamic_budget exRD0 [exH50] 0 exSC0 []).confidence = "TRES_FAIBLE" ∧
    (calculate_dynamic_budget exRD0 [exH50] 0 exSC0 []).budget_recommended ≠ 0 := by
  have hb := calculate_dynamic_budget_exRD0_eval
  have hc : (calculate_dynamic_budget exRD0 [exH50] 0 exSC0 []).confidence =
      confidenceLabel (calculate_dynamic_budget exRD0 [exH50] 0 exSC0 []).budget_recommended :=
    rfl
  refine ⟨hb, ?_, by rw [hb]; norm_num⟩
  rw [hc, hb]
  norm_num [confidenceLabel]

/-- Below 5 every branch of the label chain falls through to the lowest one. -/
theorem confidenceLabel_lt_five (b : ℚ) (h : b < 5) : confidenceLabel b = "TRES_FAIBLE" := by
  have h17 : ¬ (17 : ℚ) ≤ b := by linarith
  have h13 : ¬ (13 : ℚ) ≤ b := by linarith
  have h9 : ¬ (9 : ℚ) ≤ b := by linarith
  have h5 : ¬ (5 : ℚ) ≤ b := by linarith
  simp [confidenceLabel, h17, h13, h9, h5]

/-- C7 (amended).  When the linearly mapped and 0.5-rounded recommended budget
falls below the minimum playable threshold 5, the confidence label is the
lowest one (`TRES_FAIBLE`) and the race is flagged not playable, but the
recommended budget keeps its rounded value — it is not floored to 0. -/
theorem budget_below_threshold_label (rd : RaceData) (analyses : List HorseAnalysis)
    (q : ℚ) (sc : ScenarioInfo) (vbs : List HorseAnalysis)
    (h : (calculate_dynamic_budget rd analyses q sc vbs).budget_recommended < 5) :
    (calculate_dynamic_budget rd analyses q sc vbs).confidence = "TRES_FAIBLE" ∧
    (calculate_dynamic_budget rd analyses q sc vbs).playable = false := by
  have hc : (calculate_dynamic_budget rd analyses q sc vbs).confidence =
      confidenceLabel (calculate_dynamic_budget rd analyses q sc vbs).budget_recommended := rfl
  have hp : (calculate_dynamic_budget rd analyses q sc vbs).playable =
      decide (5 ≤ (calculate_dynamic_budget rd analyses q sc vbs).budget_recommended) := rfl
  rw [hc, hp, confidenceLabel_lt_five _ h]
  exact ⟨rfl, by simp [not_le.mpr h]⟩

/-- Witness for the amended C7 at the concrete sub-threshold race. -/
theorem budget_below_threshold_label_witness :
    (calculate_dynamic_budget exRD0 [exH50] 0 exSC0 []).budget_recommended < 5 ∧
    ((calculate_dynamic_budget exRD0 [exH50] 0 exSC0 []).confidence = "TRES_FAIBLE" ∧
     (calculate_dynamic_budget exRD0 [exH50] 0 exSC0 []).playable = false) :=
  ⟨by rw [calculate_dynamic_budget_exRD0_eval]; norm_num,
   budget_below_threshold_label exRD0 [exH50] 0 exSC0 []
     (by rw [calculate_dynamic_budget_exRD0_eval]; norm_num)⟩

/-- Every bet accepted by a successful validation run has all its runner
numbers inside `1..nb_partants`. -/
theorem validateBetsGo_range (bm : ℚ) (nb : ℕ) :
    ∀ (l : List DictBet) (total : ℚ) (cleaned : List DictBet),
      (validateBetsGo bm nb l total cleaned).1 = true →
      ∀ b ∈ l, ∀ n ∈ b.chevaux, 1 ≤ n ∧ n ≤ (nb : ℤ)
  | [], _, _ => by
      intro _ b hb
      exact absurd hb (List.not_mem_nil b)
  | b :: rest, total, cleaned => by
      intro h w hw
      by_cases g1 : b.type ∉ VALID_BET_TYPES
      · simp only [validateBetsGo, if_pos g1] at h
        simp at h
      · by_cases g2 : b.chevaux = []
        · simp only [validateBetsGo, if_neg g1, if_pos g2] at h
          simp at h
        · by_cases g3 : ¬ (∀ n ∈ b.chevaux, 1 ≤ n ∧ n ≤ (nb : ℤ))
          · simp only [validateBetsGo, if_neg g1, if_neg g2, if_pos g3] at h
            simp at h
          · by_cases g4 : miseOf b ≤ 0
            · simp only [validateBetsGo, if_neg g1, if_neg g2, if_neg g3, if_pos g4] at h
              simp at h
            · simp only [validateBetsGo, if_neg g1, if_neg g2, if_neg g3, if_neg g4] at h
              rcases List.mem_cons.mp hw with hwb | hwr
              · subst hwb
                exact not_not.mp g3
              · exact validateBetsGo_range bm nb rest (total + miseOf b) (cleaned ++ [b])
                  h w hwr

/-- C8 (amended).  `GeminiBetValidator.validate_bets` accepts a candidate set
only if every runner number of every bet lies in the integer range
`1..nb_partants`, where `nb_partants` is the count of non-scratched runners;
membership in the actual list of runner numbers is never checked. -/
theorem validate_bets_range_check (bets : List DictBet) (bm : ℚ) (nb : ℕ)
    (h : (validate_bets bets bm nb).1 = true) :
    ∀ b ∈ bets, ∀ n ∈ b.chevaux, 1 ≤ n ∧ n ≤ (nb : ℤ) := by
  by_cases hne : bets = []
  · subst hne
    intro b hb
    exact absurd hb (List.not_mem_nil b)
  · simp only [validate_bets, if_neg hne] at h
    exact validateBetsGo_range bm nb bets 0 [] h

/-- Witness for the amended C8 at a concrete accepted set. -/
theorem validate_bets_range_check_witness :
    (validate_bets [exGbet] 10 3).1 = true ∧
    (∀ b ∈ [exGbet], ∀ n ∈ b.chevaux, 1 ≤ n ∧ n ≤ ((3 : ℕ) : ℤ)) :=
  ⟨by norm_num [validate_bets, validateBetsGo, exGbet, miseOf, VALID_BET_TYPES],
   validate_bets_range_check [exGbet] 10 3
     (by norm_num [validate_bets, validateBetsGo, exGbet, miseOf, VALID_BET_TYPES])⟩

/-- C8 (counterexample).  In a race whose two non-scratched runners carry the
numbers 1 and 3 (runner 2 scratched), a bet naming the absent number 2 is
accepted — `2 ≤ nb_partants = 2` — while a bet on the genuine runner 3 is
rejected: validation checks the range `1..nb_partants`, not membership in the
runner list, contradicting the claim. -/
theorem validate_bets_membership_counterexample :
    (validate_bets [exBetOn2] 10 ([exH50, exH40n3].length)).1 = true ∧
    (validate_bets [exBetOn2] 10 ([exH50, exH40n3].length)).2.2 = [exBetOn2] ∧
    (2 : ℤ) ∉ [exH50, exH40n3].map (·.numero) ∧
    (validate_bets [exBetOn3] 10 ([exH50, exH40n3].length)).1 = false ∧
    (3 : ℤ) ∈ [exH50, exH40n3].map (·.numero) := by
  refine ⟨?_, ?_, ?_, ?_, ?_⟩ <;>
  norm_num [validate_bets, validateBetsGo, exBetOn2, exBetOn3, exH50, exH40n3,
    miseOf, VALID_BET_TYPES]

/-- Inserting into the sorted list is a permutation of consing. -/
theorem insertDesc_perm {α : Type} (key : α → ℚ) (x : α) :
    ∀ l : List α, List.Perm (insertDesc key x l) (x :: l)
  | [] => List.Perm.refl _
  | y :: ys => by
      simp only [insertDesc]
      by_cases h : key x < key y
      · rw [if_pos h]
        exact ((insertDesc_perm key x ys).cons y).trans (List.Perm.swap x y ys)
      · rw [if_neg h]

/-- `sortDesc` permutes its input. -/
theorem sortDesc_perm {α : Type} (key : α → ℚ) : ∀ l : List α, List.Perm (sortDesc key l) l
  | [] => List.Perm.refl _
  | x :: xs => (insertDesc_perm key x (sortDesc key xs)).trans ((sortDesc_perm key xs).cons x)

/-- A non-empty list stays non-empty under `sortDesc`; extract its head. -/
theorem sortDesc_cons_of_ne_nil {α : Type} (key : α → ℚ) (l : List α) (h : l ≠ []) :
    ∃ a rest, sortDesc key l = a :: rest := by
  cases hs : sortDesc key l with
  | nil =>
    have hp := sortDesc_perm key l
    rw [hs] at hp
    exact absurd hp.symm.eq_nil h
  | cons a rest => exact ⟨a, rest, rfl⟩

/-- Once the greedy loop holds a non-empty selection it never drops it. -/
theorem optimizeGo_sel_ne_nil (bm : ℚ) :
    ∀ (l sel : List BetRecommendation) (total : ℚ), sel ≠ [] →
      (optimizeGo bm l sel total).1 ≠ []
  | [], sel, total => fun h => by simpa [optimizeGo] using h
  | b :: rest, sel, total => fun h => by
      simp only [optimizeGo]
      by_cases hc : total + b.cost ≤ bm
      · rw [if_pos hc]
        exact optimizeGo_sel_ne_nil bm rest (sel ++ [b]) (total + b.cost) (by simp)
      · rw [if_neg hc]
        exact optimizeGo_sel_ne_nil bm rest sel total h

/-- If some remaining bet still fits the budget, the greedy loop selects
something. -/
theorem optimizeGo_ne_nil (bm : ℚ) :
    ∀ (l sel : List BetRecommendation) (total : ℚ),
      (∃ b ∈ l, total + b.cost ≤ bm) → (optimizeGo bm l sel total).1 ≠ []
  | [], _, _ => by
      rintro ⟨b, hb, _⟩
      exact absurd hb (List.not_mem_nil b)
  | b :: rest, sel, total => by
      rintro ⟨w, hw, hwc⟩
      simp only [optimizeGo]
      by_cases hc : total + b.cost ≤ bm
      · rw [if_pos hc]
        exact optimizeGo_sel_ne_nil bm rest (sel ++ [b]) (total + b.cost) (by simp)
      · rw [if_neg hc]
        rcases List.mem_cons.mp hw with rfl | hwr
        · exact absurd hwc hc
        · exact optimizeGo_ne_nil bm rest sel total ⟨w, hwr, hwc⟩

/-- `_optimize_budget` returns a non-empty selection whenever some bet alone
fits the budget. -/
theorem optimize_budget_ne_nil (bm : ℚ) (bets : List BetRecommendation)
    (h : ∃ b ∈ bets, b.cost ≤ bm) : (optimize_budget bm bets).1 ≠ [] := by
  obtain ⟨b, hb, hc⟩ := h
  have hbs : b ∈ sortDesc (fun b => b.roi_expected / b.cost) bets :=
    (sortDesc_perm _ _).mem_iff.mpr hb
  exact optimizeGo_ne_nil bm _ [] 0 ⟨b, hbs, by rw [zero_add]; exact hc⟩

/-- The CADENAS template always contains the 1.50 win bet on the favourite. -/
theorem strategy_cadenas_exists_cheap (a : HorseAnalysis) (rest : List HorseAnalysis) :
    ∃ b ∈ strategy_cadenas (a :: rest), b.cost ≤ 3 := by
  simp only [strategy_cadenas]
  exact ⟨_, List.mem_cons_self _ _, by norm_num⟩

/-- The BATAILLE template contains the 3.00 MULTI_EN_5 when five runners
score at least 70. -/
theorem strategy_bataille_exists_cheap (analyses : List HorseAnalysis)
    (h5 : 5 ≤ (analyses.filter (fun x => decide (70 ≤ x.score.total))).length) :
    ∃ b ∈ strategy_bataille analyses, b.cost ≤ 3 := by
  have hlen : 5 ≤ ((analyses.filter (fun x => decide (70 ≤ x.score.total))).take 5).length := by
    rw [List.length_take]
    exact le_min (le_refl 5) h5
  simp only [strategy_bataille, if_pos hlen]
  exact ⟨_, List.mem_append_left _ (List.mem_cons_self _ _), by norm_num⟩

/-- The SURPRISE template always contains the 1.50 win bet on the best value
bet. -/
theorem strategy_surprise_exists_cheap (value_bets all_analyses : List HorseAnalysis)
    (hne : value_bets ≠ []) :
    ∃ b ∈ strategy_surprise value_bets all_analyses, b.cost ≤ 3 := by
  obtain ⟨v, t, hv⟩ := sortDesc_cons_of_ne_nil (fun x => x.value_bet.edge) value_bets hne
  simp only [strategy_surprise, hv]
  exact ⟨_, List.mem_cons_self _ _, by norm_num⟩

/-- The default template on a non-empty field contains a 1.50 win bet. -/
theorem strategy_default_exists_cheap (a : HorseAnalysis) (rest : List HorseAnalysis) :
    ∃ b ∈ strategy_default (a :: rest), b.cost ≤ 3 := by
  simp only [strategy_default, List.take_succ_cons, strategyDefaultGo]
  exact ⟨_, List.mem_cons_self _ _, by norm_num⟩

/-- C9 (amended).  For every non-empty list of scored runners and every
budget of at least 3.00 (the largest minimum bet cost across the four
strategy templates), the local fallback generator returns a non-empty bet
list.  (For positive budgets below the selected template's cheapest bet the
output can be empty — see the counterexample.) -/
theorem generate_bets_nonempty (analyses : List HorseAnalysis) (budget : ℚ)
    (hne : analyses ≠ []) (hb : 3 ≤ budget) : (generate_bets budget analyses).1 ≠ [] := by
  obtain ⟨a, rest, hsort⟩ :=
    sortDesc_cons_of_ne_nil (fun x => (x.score.total : ℚ)) analyses hne
  have hperm : List.Perm (a :: rest) analyses := hsort ▸ sortDesc_perm _ analyses
  simp only [generate_bets, hsort]
  by_cases h85 : 85 ≤ a.score.total
  · rw [if_pos h85]
    apply optimize_budget_ne_nil
    obtain ⟨b, hbm, hbc⟩ := strategy_cadenas_exists_cheap a rest
    exact ⟨b, hbm, le_trans hbc hb⟩
  · rw [if_neg h85]
    by_cases h5 : 5 ≤ (analyses.filter (fun x => decide (70 ≤ x.score.total))).length
    · rw [if_pos h5]
      apply optimize_budget_ne_nil
      have h5s : 5 ≤ ((a :: rest).filter (fun x => decide (70 ≤ x.score.total))).length := by
        rw [(hperm.filter _).length_eq]
        exact h5
      obtain ⟨b, hbm, hbc⟩ := strategy_bataille_exists_cheap (a :: rest) h5s
      exact ⟨b, hbm, le_trans hbc hb⟩
    · rw [if_neg h5]
      by_cases hvb :
          analyses.filter (fun x => x.value_bet.is_value_bet && decide (70 ≤ x.score.total)) ≠ []
      · rw [if_pos hvb]
        apply optimize_budget_ne_nil
        obtain ⟨b, hbm, hbc⟩ := strategy_surprise_exists_cheap _ (a :: rest) hvb
        exact ⟨b, hbm, le_trans hbc hb⟩
      · rw [if_neg hvb]
        apply optimize_budget_ne_nil
        obtain ⟨b, hbm, hbc⟩ := strategy_default_exists_cheap a rest
        exact ⟨b, hbm, le_trans hbc hb⟩

/-- Witness for the amended C9 at a concrete input. -/
theorem generate_bets_nonempty_witness :
    [exH50] ≠ [] ∧ (3 : ℚ) ≤ 5 ∧ (generate_bets 5 [exH50]).1 ≠ [] :=
  ⟨by simp, by norm_num, generate_bets_nonempty [exH50] 5 (by simp) (by norm_num)⟩

/-- C9 (counterexample).  With one scored runner and a strictly positive
recommended budget of 1.00 (scenario classified by the default template, not
UNPLAYABLE — the spec defines UNPLAYABLE as `recommended == 0`), the greedy
budget trimming drops the only 1.50 bet and the local generator returns an
empty list, contradicting the claim. -/
theorem generate_bets_empty_counterexample :
    (generate_bets 1 [exH50]).1 = [] ∧ [exH50] ≠ [] ∧ (0 : ℚ) < 1 := by
  refine ⟨?_, by simp, by norm_num⟩
  norm_num [generate_bets, strategy_default, strategyDefaultGo, sortDesc, insertDesc,
    optimize_budget, optimizeGo, exH50, List.take_succ_cons]

/-- C10.  An absent `confiance_globale` field defaults to 10 in the serving
pipeline's kill-switch check (`result_json.get("confiance_globale", 10)`), so
the kill switch does not fire; the same absent field reads as 0 in
`ResponseValidator` (`gemini_response.get('confiance_globale', 0)`) and
`validate_and_parse` rejects the response (its required-field structure check
fails first). -/
theorem missing_confidence_defaults (resp : GeminiResponse) (r : RVResponse)
    (race : Race) (budget : ℚ)
    (hresp : resp.confiance_globale = none) (hr : r.confiance_globale = none) :
    confianceValue resp = 10 ∧ killSwitchFired (.success resp) = false ∧
    rv_confiance r = 0 ∧ validate_and_parse r race budget (1/2) = none := by
  have hcv : confianceValue resp = 10 := by simp [confianceValue, hresp]
  refine ⟨hcv, ?_, by simp [rv_confiance, hr], ?_⟩
  · simp [killSwitchFired, hcv]
  · have hstruct : ¬ (rv_validate_structure r = true) := by
      simp [rv_validate_structure, hr]
    simp [validate_and_parse, hstruct]

/-- Witness for C10 at concrete inputs. -/
theorem missing_confidence_defaults_witness :
    (⟨[], none⟩ : GeminiResponse).confiance_globale = none ∧
    exRVNoConf.confiance_globale = none ∧
    (confianceValue ⟨[], none⟩ = 10 ∧ killSwitchFired (.success ⟨[], none⟩) = false ∧
     rv_confiance exRVNoConf = 0 ∧
     validate_and_parse exRVNoConf ⟨5, 7⟩ 20 (1/2) = none) :=
  ⟨rfl, by simp [exRVNoConf],
   missing_confidence_defaults ⟨[], none⟩ exRVNoConf ⟨5, 7⟩ 20 rfl (by simp [exRVNoConf])⟩

/-- The budget policy never outputs a negative recommended budget (the clamp
`max(0, min(20, ...))`), which justifies the non-negativity hypothesis of the
pipeline budget invariant. -/
theorem calculate_dynamic_budget_nonneg (rd : RaceData) (analyses : List HorseAnalysis)
    (q : ℚ) (sc : ScenarioInfo) (vbs : List HorseAnalysis) :
    0 ≤ (calculate_dynamic_budget rd analyses q sc vbs).budget_recommended :=
  le_max_left 0 _
